import Mathlib

/-!
Verification of the researcher repository's core pipeline against its
specification.  The Python sources are shallowly embedded: strings become
`List Char`, Python ints become `Nat` (all values in play are non-negative,
and the one truncation-sensitive spot, the window-advance in the chunker,
is modelled together with its `start <= 0` guard so that the `Nat` model
agrees with the Python ints), database rows become structures, and the
while-loop of the chunker is driven by explicit fuel so that
non-termination of the source loop is visible as `none` for every fuel.
-/

/-! ## Python string primitives

`pyIsSpace` is the ASCII part of Python's `str.strip` whitespace set,
which covers every character appearing in this code base. -/

def pyIsSpace (c : Char) : Bool :=
  decide (c = ' ' ∨ c = '\t' ∨ c = '\n' ∨ c = '\r' ∨ c = '\x0b' ∨ c = '\x0c')

/-- Python `s.strip()`: drop whitespace from both ends. -/
def pyStrip (l : List Char) : List Char :=
  ((l.dropWhile pyIsSpace).reverse.dropWhile pyIsSpace).reverse

/-- Python slice `s[a:b]` for `0 ≤ a`, `0 ≤ b` (the only uses in the chunker). -/
def pySlice (l : List Char) (a b : Nat) : List Char :=
  (l.take b).drop a

/-- Python `s.rfind(sub, a, b)`: the largest `i` with `a ≤ i` and
`i + sub.length ≤ min b s.length` such that `sub` occurs at `i`;
`none` plays the role of Python's `-1`. -/
def pyRfind (xs sub : List Char) (a b : Nat) : Option Nat :=
  ((List.range' a (min b xs.length + 1 - (a + sub.length))).filter
    (fun i => sub.isPrefixOf (xs.drop i))).getLast?

/-! ## services/vector-db/text_chunker.py -/

/-- The configuration of `TextChunker.__init__` (`chunk_size`,
`chunk_overlap`; the service defaults are 500 and 50). -/
structure TextChunker where
  chunk_size : Nat
  chunk_overlap : Nat
deriving DecidableEq, Repr

/-- One chunk dictionary produced by `chunk_text`.  The Python key
`section` is named `sect` here because `section` is a Lean keyword. -/
structure ChunkDict where
  chunk_index : Nat
  text : List Char
  sect : Option String
  chunk_type : String
deriving DecidableEq, Repr

/-- The boundary list `['. ', '! ', '? ', '\n\n', '\n']` from `chunk_text`. -/
def delimiterList : List (List Char) :=
  [['.', ' '], ['!', ' '], ['?', ' '], ['\n', '\n'], ['\n']]

/-- The `for delimiter in [...]` / `else` search of `chunk_text`: the first
delimiter whose last occurrence `i` in `[start, e)` satisfies `i > start`
sets the window end to `i + len(delimiter)`. -/
def findDelimiterBreak (text : List Char) (start e : Nat) :
    List (List Char) → Option Nat
  | [] => none
  | d :: ds =>
    match pyRfind text d start e with
    | some i => if start < i then some (i + d.length) else findDelimiterBreak text start e ds
    | none => findDelimiterBreak text start e ds

/-- The window-end computation of one `chunk_text` iteration: start with
`start + chunk_size`; if that is not yet the end of the text, back off to a
sentence boundary, else to the last space strictly after `start`. -/
def computeEnd (chunk_size : Nat) (text : List Char) (start : Nat) : Nat :=
  let e := start + chunk_size
  if e < text.length then
    match findDelimiterBreak text start e delimiterList with
    | some newEnd => newEnd
    | none =>
      match pyRfind text [' '] start e with
      | some i => if start < i then i else e
      | none => e
  else e

/-- `text[start:end].strip()` for the current window. -/
def chunkPiece (cfg : TextChunker) (text : List Char) (start : Nat) : List Char :=
  pyStrip (pySlice text start (computeEnd cfg.chunk_size text start))

/-- The window advance of `chunk_text`:
`start = end - overlap if end < len(text) else end`, followed by the
`if start <= 0: start = end` guard.  In the `Nat` model the guard is the
`e ≤ overlap` test (Python's `end - overlap ≤ 0`). -/
def nextStart (cfg : TextChunker) (text : List Char) (start : Nat) : Nat :=
  let e := computeEnd cfg.chunk_size text start
  if e < text.length then (if e ≤ cfg.chunk_overlap then e else e - cfg.chunk_overlap) else e

/-- The `while start < len(text)` loop of `chunk_text`, driven by fuel:
`none` means the loop has not terminated within `fuel` iterations. -/
def chunkLoop (cfg : TextChunker) (text : List Char) (sect : Option String) :
    Nat → Nat → Nat → List ChunkDict → Option (List ChunkDict)
  | 0, _, _, _ => none
  | fuel + 1, start, chunk_index, acc =>
    if start < text.length then
      chunkLoop cfg text sect fuel (nextStart cfg text start)
        (if (chunkPiece cfg text start).isEmpty then chunk_index else chunk_index + 1)
        (if (chunkPiece cfg text start).isEmpty then acc
         else acc ++ [⟨chunk_index, chunkPiece cfg text start, sect, "text"⟩])
    else some acc

/-- `TextChunker.chunk_text`, including the initial
`if not text or not text.strip(): return []` test. -/
def chunk_text (cfg : TextChunker) (fuel : Nat) (text : List Char)
    (sect : Option String) : Option (List ChunkDict) :=
  if text.isEmpty || (pyStrip text).isEmpty then some []
  else chunkLoop cfg text sect fuel 0 0 []

/-- Renumbering performed by `chunk_sections`: each chunk of a section gets
the next global chunk index. -/
def renumberFrom (g : Nat) : List ChunkDict → List ChunkDict
  | [] => []
  | c :: cs => { c with chunk_index := g } :: renumberFrom (g + 1) cs

/-- `TextChunker.chunk_sections`, generalised over the running global
index; sections whose text is empty or whitespace-only are skipped. -/
def chunkSectionsAux (cfg : TextChunker) (fuel : Nat) :
    List (String × List Char) → Nat → Option (List ChunkDict)
  | [], _ => some []
  | (name, t) :: rest, g =>
    if t.isEmpty || (pyStrip t).isEmpty then chunkSectionsAux cfg fuel rest g
    else
      match chunk_text cfg fuel t (some name) with
      | none => none
      | some cs =>
        match chunkSectionsAux cfg fuel rest (g + cs.length) with
        | none => none
        | some csRest => some (renumberFrom g cs ++ csRest)

/-- `TextChunker.chunk_sections` (the dict is modelled as an association
list in insertion order). -/
def chunk_sections (cfg : TextChunker) (fuel : Nat)
    (sections : List (String × List Char)) : Option (List ChunkDict) :=
  chunkSectionsAux cfg fuel sections 0

/-- `TextChunker.chunk_with_metadata`: section-based chunking whenever the
sections dict is truthy and some section strips to non-empty text, else
full-text chunking under the pseudo-section `full_text`. -/
def chunk_with_metadata (cfg : TextChunker) (fuel : Nat) (full_text : List Char)
    (sections : Option (List (String × List Char))) : Option (List ChunkDict) :=
  match sections with
  | some secs =>
    if secs.any (fun p => !(pyStrip p.2).isEmpty) then chunk_sections cfg fuel secs
    else chunk_text cfg fuel full_text (some "full_text")
  | none => chunk_text cfg fuel full_text (some "full_text")

/-! ## services/document-processing/jobs_crud.py -/

/-- The terminal status list `['completed', 'failed', 'cancelled']` used by
`update_job_status` and `cancel_job`. -/
def terminalStatuses : List String := ["completed", "failed", "cancelled"]

/-- The mutable row of a `ProcessingJob` (the fields touched by
`update_job_status` and `cancel_job`); timestamps are abstract `Nat`
instants supplied by the caller in place of `datetime.utcnow()`. -/
structure ProcessingJob where
  status : String
  progress : Nat
  error_message : Option String
  document_id : Option Nat
  started_at : Option Nat
  completed_at : Option Nat
deriving DecidableEq, Repr

/-- The row created by `JobsCRUD.create_job`: status `pending`, progress 0,
no timestamps beyond creation. -/
def freshJob : ProcessingJob :=
  { status := "pending", progress := 0, error_message := none,
    document_id := none, started_at := none, completed_at := none }

/-- `JobsCRUD.update_job_status` on a found job.  Python truthiness is kept:
an empty `error_message` and a zero `document_id` are not written.  The
timestamp logic is the source's `if status == 'processing' and not
job.started_at: ... elif status in ['completed','failed','cancelled']: ...`
chain; note that nothing ever clears `completed_at` and that no status or
progress value is ever rejected. -/
def update_job_status (now : Nat) (job : ProcessingJob) (status : String)
    (progress : Option Nat) (error_message : Option String)
    (document_id : Option Nat) : ProcessingJob :=
  let j1 := { job with status := status }
  let j2 := match progress with
    | some p => { j1 with progress := p }
    | none => j1
  let j3 := match error_message with
    | some m => if m = "" then j2 else { j2 with error_message := some m }
    | none => j2
  let j4 := match document_id with
    | some d => if d = 0 then j3 else { j3 with document_id := some d }
    | none => j3
  if status = "processing" ∧ j4.started_at = (none : Option Nat) then { j4 with started_at := some now }
  else if status ∈ terminalStatuses then { j4 with completed_at := some now }
  else j4

/-- `JobsCRUD.cancel_job` on a found job: refuse terminal jobs, otherwise
set status `cancelled` and stamp `completed_at`. -/
def cancel_job (now : Nat) (job : ProcessingJob) : Bool × ProcessingJob :=
  if job.status ∈ terminalStatuses then (false, job)
  else (true, { job with status := "cancelled", completed_at := some now })

/-- One `update_job_status` call as issued by `process_document_task`. -/
structure JobUpdate where
  status : String
  progress : Option Nat
  error_message : Option String
  document_id : Option Nat
deriving DecidableEq, Repr

/-- Run a sequence of `update_job_status` calls at increasing instants and
return the job state observed after each call. -/
def runUpdates (now : Nat) (job : ProcessingJob) : List JobUpdate → List ProcessingJob
  | [] => []
  | u :: us =>
    let j := update_job_status now job u.status u.progress u.error_message u.document_id
    j :: runUpdates (now + 1) j us

/-- A progress update `update_job_status(db, job_id, 'processing', progress=p)`
as issued throughout `process_document_task`. -/
def procUpdate (p : Nat) : JobUpdate := ⟨"processing", some p, none, none⟩

/-- The full sequence of `update_job_status` calls on the success path of
`process_document_task` (progress 0, 10, 15, 25, 35, 50, 60, 70, 80, 90,
then `completed` with progress 100 and the document id). -/
def successPathUpdates (docId : Nat) : List JobUpdate :=
  [procUpdate 0, procUpdate 10, procUpdate 15, procUpdate 25, procUpdate 35,
   procUpdate 50, procUpdate 60, procUpdate 70, procUpdate 80, procUpdate 90,
   ⟨"completed", some 100, none, some docId⟩]

/-- The `update_job_status` calls of an attempt of `process_document_task`
that raises after the progress-10 update (`'failed'` is written with no
progress), followed by the automatic Celery retry re-running the pipeline
from the start. -/
def retryTraceUpdates : List JobUpdate :=
  [procUpdate 0, procUpdate 10, ⟨"failed", none, some "boom", none⟩,
   procUpdate 0, procUpdate 10]

/-- The progress values observed while the job's status is `processing`. -/
def processingProgressValues (states : List ProcessingJob) : List Nat :=
  (states.filter (fun s => s.status == "processing")).map (fun s => s.progress)

/-- A list of naturals is non-decreasing: each element is at most its
successor. -/
def nonDecreasing : List Nat → Bool
  | [] => true
  | [_] => true
  | a :: b :: rest => decide (a ≤ b) && nonDecreasing (b :: rest)

/-- The invariant asserted by the spec for a sequence of observed job
states: progress is non-decreasing while status is `processing`, and
`completed_at` is non-null exactly in terminal states. -/
def jobInvariantHolds (states : List ProcessingJob) : Prop :=
  nonDecreasing (processingProgressValues states) = true ∧
  ∀ s ∈ states, (s.completed_at ≠ none ↔ s.status ∈ terminalStatuses)

instance (states : List ProcessingJob) : Decidable (jobInvariantHolds states) :=
  inferInstanceAs (Decidable (nonDecreasing (processingProgressValues states) = true ∧
    ∀ s ∈ states, (s.completed_at ≠ none ↔ s.status ∈ terminalStatuses)))

/-! ## services/document-processing/utils/ocr_processor.py -/

/-- Result dictionary of `OCRProcessor.extract_text_with_ocr`. -/
structure OcrResult where
  success : Bool
  error : Option String
  full_text : List Char
  page_count : Nat
  total_chars : Nat
deriving DecidableEq, Repr

/-- `OCRProcessor.extract_text_with_ocr`.  Rasterisation plus Tesseract is
an external effect; its outcome is the `Except` input: `.ok pages` carries
the per-page OCR texts, `.error e` is any exception raised while
converting or recognising.  On success the page texts are joined with
blank-line separators and the stripped character counts summed; on any
exception a `success=False` dictionary is returned instead of
propagating. -/
def extract_text_with_ocr (pages : Except String (List (List Char))) : OcrResult :=
  match pages with
  | .error e => { success := false, error := some e, full_text := [],
                  page_count := 0, total_chars := 0 }
  | .ok ps =>
    { success := true, error := none,
      full_text := List.intercalate ['\n', '\n'] ps,
      page_count := ps.length,
      total_chars := (ps.map (fun p => (pyStrip p).length)).sum }

/-- `OCRProcessor.is_scanned_pdf` on a PDF that opens successfully and
yields the given per-page extracted texts.  Mean characters per page are
computed over the first `min(sample_pages, total_pages)` pages with
`len(page_text.strip())`; the result is
`(avg < 50, 1 - min(avg / 500, 1))` with rationals in place of floats. -/
def is_scanned_pdf (pageTexts : List (List Char)) (sample_pages : Nat) : Bool × ℚ :=
  let pages_to_check := min sample_pages pageTexts.length
  let text_char_counts := (pageTexts.take pages_to_check).map (fun t => (pyStrip t).length)
  let avg_chars : ℚ :=
    if text_char_counts.isEmpty then 0
    else ((text_char_counts.sum : ℚ) / (text_char_counts.length : ℚ))
  (decide (avg_chars < 50), 1 - min (avg_chars / 500) 1)

/-- `OCRProcessor.is_scanned_pdf` including its `except` clause: any
exception while opening or parsing the PDF yields `(False, 0.0)`. -/
def is_scanned_pdf_safe (input : Except String (List (List Char)))
    (sample_pages : Nat) : Bool × ℚ :=
  match input with
  | .error _ => (false, 0)
  | .ok pageTexts => is_scanned_pdf pageTexts sample_pages

/-- Result dictionary of `OCRProcessor.extract_with_fallback`
(`full_text = none` models the `'full_text': None` of the skip branch). -/
structure FallbackResult where
  success : Bool
  full_text : Option (List Char)
  ocr_applied : Bool
  scanned_confidence : ℚ
  error : Option String
deriving DecidableEq, Repr

/-- `OCRProcessor.extract_with_fallback`: run detection, then OCR only when
forced or when `is_scanned and confidence > 0.7`; otherwise report that the
caller should use regular extraction. -/
def extract_with_fallback (input : Except String (List (List Char)))
    (ocrPages : Except String (List (List Char))) (force_ocr : Bool) : FallbackResult :=
  let det := is_scanned_pdf_safe input 3
  if force_ocr = true ∨ (det.1 = true ∧ det.2 > 7/10) then
    let r := extract_text_with_ocr ocrPages
    { success := r.success, full_text := some r.full_text, ocr_applied := true,
      scanned_confidence := det.2, error := r.error }
  else
    { success := true, full_text := none, ocr_applied := false,
      scanned_confidence := det.2, error := none }

/-! ## The OCR-decision segment of process_document_task (tasks.py) -/

/-- One entry of the job's step log as written by
`JobsCRUD.add_processing_step` (name and status are what the claims are
about). -/
structure StepRecord where
  step_name : String
  status : String
deriving DecidableEq, Repr

/-- Step 2 of `process_document_task` (the OCR decision, tasks.py lines
84-119): given the detection outcome, the OCR result and the extractor's
direct text, return the text the pipeline continues with, the
`ocr_applied` flag, and the steps recorded in the job's step log by this
segment.  In the source the OCR-failure branch only logs a warning and
falls back to `parser.extract_text()`; it records no step. -/
def taskOcrSegment (is_scanned : Bool) (confidence : ℚ)
    (ocr_result : OcrResult) (direct_text : List Char) :
    List Char × Bool × List StepRecord :=
  if is_scanned = true ∧ confidence > 7/10 then
    if ocr_result.success then
      (ocr_result.full_text, true,
        [⟨"ocr_detection", "completed"⟩, ⟨"ocr_extraction", "completed"⟩])
    else
      (direct_text, false, [⟨"ocr_detection", "completed"⟩])
  else
    (direct_text, false, [⟨"ocr_detection", "completed"⟩])

/-! ## services/document-processing/utils/doi_extractor.py

The three `DOI_PATTERNS` are compiled with `re.IGNORECASE` and applied via
`re.findall` (leftmost, non-overlapping).  Each pattern is embedded as a
direct matcher.  For these patterns the backtracking of the Python engine
collapses to maximal munch: in `10\.\d-digits{4,9}/class+` every shorter
digit choice places the `/` test on a digit, and the final character class
is greedy with nothing after it, so no backtracking point survives; the
optional `https?://` and `dx\.` groups of the third pattern can never
mask an alternative match because a skipped prefix would have to start
with the letter `d` of `doi.org` instead. -/

def isAsciiDigit (c : Char) : Bool := decide ('0' ≤ c ∧ c ≤ '9')

/-- The character class `[-._;()/:A-Z0-9]` under `re.IGNORECASE`. -/
def doiBodyChar (c : Char) : Bool :=
  decide (('A' ≤ c ∧ c ≤ 'Z') ∨ ('a' ≤ c ∧ c ≤ 'z') ∨ ('0' ≤ c ∧ c ≤ '9') ∨
    c = '-' ∨ c = '.' ∨ c = '_' ∨ c = ';' ∨ c = '(' ∨ c = ')' ∨ c = '/' ∨ c = ':')

/-- Length of the maximal run of characters satisfying `p`. -/
def countWhile (p : Char → Bool) : List Char → Nat
  | [] => 0
  | c :: cs => if p c then countWhile p cs + 1 else 0

/-- Match `10\.\d-digits{4,9}/[-._;()/:A-Z0-9]+` (pattern 1) at the head of
`cs`, returning the match length. -/
def matchDoiBody (cs : List Char) : Option Nat :=
  if cs.take 3 = ['1', '0', '.'] then
    let rest := cs.drop 3
    let d := countWhile isAsciiDigit rest
    if 4 ≤ d ∧ d ≤ 9 ∧ (rest.drop d).take 1 = ['/'] then
      let b := countWhile doiBodyChar (rest.drop (d + 1))
      if 1 ≤ b then some (3 + d + 1 + b) else none
    else none
  else none

/-- Match `doi:\s*` followed by pattern 1 (pattern 2) at the head of `cs`,
returning the whole match length. -/
def matchDoiPrefixed (cs : List Char) : Option Nat :=
  if (cs.take 4).map Char.toLower = ['d', 'o', 'i', ':'] then
    let afterColon := cs.drop 4
    let w := countWhile pyIsSpace afterColon
    match matchDoiBody (afterColon.drop w) with
    | some n => some (4 + w + n)
    | none => none
  else none

/-- Length matched by the optional `(?:https?://)?` group. -/
def matchUrlLen (cs : List Char) : Nat :=
  if (cs.take 8).map Char.toLower = ['h', 't', 't', 'p', 's', ':', '/', '/'] then 8
  else if (cs.take 7).map Char.toLower = ['h', 't', 't', 'p', ':', '/', '/'] then 7
  else 0

/-- Length matched by the optional `(?:dx\.)?` group. -/
def matchDxLen (cs : List Char) : Nat :=
  if (cs.take 3).map Char.toLower = ['d', 'x', '.'] then 3 else 0

/-- Match pattern 3 `(?:https?://)?(?:dx\.)?doi\.org/(10\....)` at the head
of `cs`: returns `(offset of the capture group, group length, total match
length)`; `re.findall` yields only the group. -/
def matchDoiUrl (cs : List Char) : Option (Nat × Nat × Nat) :=
  let u := matchUrlLen cs
  let rest1 := cs.drop u
  let x := matchDxLen rest1
  let rest2 := rest1.drop x
  if (rest2.take 8).map Char.toLower = ['d', 'o', 'i', '.', 'o', 'r', 'g', '/'] then
    match matchDoiBody (rest2.drop 8) with
    | some n => some (u + x + 8, n, u + x + 8 + n)
    | none => none
  else none

/-- Pattern 1 as a findall matcher `(emit offset, emit length, advance)`. -/
def doiPattern1 (cs : List Char) : Option (Nat × Nat × Nat) :=
  match matchDoiBody cs with
  | some n => some (0, n, n)
  | none => none

/-- Pattern 2 as a findall matcher (no group, the whole match is emitted). -/
def doiPattern2 (cs : List Char) : Option (Nat × Nat × Nat) :=
  match matchDoiPrefixed cs with
  | some n => some (0, n, n)
  | none => none

/-- `re.findall`: scan left to right; on a match emit the captured slice
and continue after the whole match, else advance one character.  Fuel is
the remaining length (every match here is non-empty). -/
def findAllAux (m : List Char → Option (Nat × Nat × Nat)) :
    Nat → List Char → List (List Char)
  | 0, _ => []
  | _ + 1, [] => []
  | fuel + 1, cs =>
    match m cs with
    | some (off, len, total) => (cs.drop off).take len :: findAllAux m fuel (cs.drop total)
    | none => findAllAux m fuel (cs.drop 1)

/-- All findall matches of one pattern over `cs`. -/
def findAllMatches (m : List Char → Option (Nat × Nat × Nat)) (cs : List Char) :
    List (List Char) :=
  findAllAux m (cs.length + 1) cs

/-- The cleanup `re.sub(r'^doi:\s*', '', doi, flags=re.IGNORECASE)`. -/
def stripDoiColon (cs : List Char) : List Char :=
  if (cs.take 4).map Char.toLower = ['d', 'o', 'i', ':'] then
    let rest := cs.drop 4
    rest.drop (countWhile pyIsSpace rest)
  else cs

/-- The cleanup `re.sub(r'^(?:https?://)?(?:dx\.)?doi\.org/', '', doi, ...)`:
nothing is removed unless the whole anchored pattern matches. -/
def stripDoiOrg (cs : List Char) : List Char :=
  let u := matchUrlLen cs
  let rest1 := cs.drop u
  let x := matchDxLen rest1
  let rest2 := rest1.drop x
  if (rest2.take 8).map Char.toLower = ['d', 'o', 'i', '.', 'o', 'r', 'g', '/'] then
    rest2.drop 8
  else cs

/-- First-occurrence deduplication, modelling the Python `set` of
`extract_dois` (CPython iterates a set in an unspecified order; the claims
proved here depend on the set's content, and on its order only through
single-element sets). -/
def dedupeFirst (seen : List (List Char)) : List (List Char) → List (List Char)
  | [] => []
  | x :: xs => if x ∈ seen then dedupeFirst seen xs else x :: dedupeFirst (x :: seen) xs

/-- `DOIExtractor.extract_dois`: findall each pattern, strip, remove the
`doi:`/`doi.org` prefixes, keep candidates starting with `10.`, and
deduplicate. -/
def extract_dois (text : String) : List String :=
  let raw := findAllMatches doiPattern1 text.data ++ findAllMatches doiPattern2 text.data
      ++ findAllMatches matchDoiUrl text.data
  let cleaned := raw.map (fun m => stripDoiOrg (stripDoiColon (pyStrip m)))
  let kept := cleaned.filter (fun d => d.take 3 == ['1', '0', '.'])
  (dedupeFirst [] kept).map (fun l => String.mk l)

/-- `DOIExtractor.extract_and_validate`.  `validate_doi` performs an
external CrossRef HTTP lookup; it is abstracted as `validateOracle`, which
reports whether CrossRef calls the DOI valid.  The source returns the
first validated DOI, and when every candidate fails validation it returns
`dois[0]` anyway ("Found DOIs but validation failed, using first"). -/
def extract_and_validate (validateOracle : String → Bool) (text : String)
    (validate : Bool) : Option String :=
  let dois := extract_dois text
  if dois.isEmpty then none
  else if validate then
    match dois.find? validateOracle with
    | some d => some d
    | none => dois.head?
  else dois.head?

/-! ## services/vector-db/crud.py - search_similar_chunks

The SQL query computes `1 - (embedding <=> :query_embedding)` per row,
filters by the optional document/section/chunk-type equalities, and runs
`ORDER BY similarity DESC LIMIT :max_results`.  pgvector's `<=>` is cosine
distance; floats are modelled by exact reals.  SQL fixes no order among
rows with equal `similarity`, so the query is embedded as a predicate over
the possible result lists rather than a function: any permutation of the
filtered table that is sorted by non-increasing similarity may be taken,
then truncated to `max_results`. -/

/-- A stored `document_chunks` row (the columns the search selects). -/
structure ChunkRow where
  id : Nat
  document_id : Nat
  chunk_index : Nat
  text : String
  sect : Option String
  chunk_type : String
  embedding : List ℝ

/-- Vector dot product, pairing componentwise like pgvector. -/
def dotProduct (a b : List ℝ) : ℝ := (List.zipWith (fun x y => x * y) a b).sum

/-- pgvector's `<=>` operator: cosine distance
`1 - a.b / (norm a * norm b)`. -/
noncomputable def cosine_distance (a b : List ℝ) : ℝ :=
  1 - dotProduct a b / (Real.sqrt (dotProduct a a) * Real.sqrt (dotProduct b b))

/-- The `WHERE` clause of `search_similar_chunks`: each filter is applied
only when present (in the source, only when the Python argument is
truthy). -/
def rowMatchesFilters (docF : Option Nat) (secF : Option String)
    (typeF : Option String) (r : ChunkRow) : Bool :=
  (match docF with
   | some d => r.document_id == d
   | none => true) &&
  (match secF with
   | some s => r.sect == some s
   | none => true) &&
  (match typeF with
   | some t => r.chunk_type == t
   | none => true)

/-- The similarity column `1 - (embedding <=> :query_embedding)` and the
`similarity_score` the endpoint passes through unchanged. -/
noncomputable def similarityScore (r : ChunkRow) (q : List ℝ) : ℝ :=
  1 - cosine_distance r.embedding q

/-- `search_similar_chunks` as a relation between the stored table and a
possible result list: some ordering `ranked` of the filtered rows that is
sorted by non-increasing similarity is truncated to `max_results`, and
each row is returned together with its similarity score. -/
def search_similar_chunks_valid (table : List ChunkRow) (query_embedding : List ℝ)
    (max_results : Nat) (docF : Option Nat) (secF typeF : Option String)
    (out : List (ChunkRow × ℝ)) : Prop :=
  ∃ ranked : List ChunkRow,
    ranked.Perm (table.filter (rowMatchesFilters docF secF typeF)) ∧
    ranked.Pairwise (fun r₁ r₂ => similarityScore r₂ query_embedding ≤ similarityScore r₁ query_embedding) ∧
    out = (ranked.take max_results).map (fun r => (r, similarityScore r query_embedding))

/-- The tie rule asserted by the spec: any two results with equal
similarity appear in ascending `chunk_index` order. -/
def tiesByChunkIndex (out : List (ChunkRow × ℝ)) : Prop :=
  out.Pairwise (fun a b => a.2 = b.2 → a.1.chunk_index ≤ b.1.chunk_index)

/-- Two stored chunks with identical embeddings (hence identical
similarity to every query), chunk indices 0 and 1. -/
def rowA : ChunkRow :=
  { id := 1, document_id := 1, chunk_index := 0, text := "alpha",
    sect := none, chunk_type := "text", embedding := [1, 0] }

/-- See `rowA`. -/
def rowB : ChunkRow :=
  { id := 2, document_id := 1, chunk_index := 1, text := "beta",
    sect := none, chunk_type := "text", embedding := [1, 0] }

/-! ## Concrete instances used by the claims -/

/-- A chunker configuration with `chunk_size = 10`, `chunk_overlap = 5`
(both legal per the spec: positive size, overlap smaller than the size). -/
def c4cfg : TextChunker := ⟨10, 5⟩

/-- `"aaaa. "` followed by twenty `a`s: the sentence boundary at index 4
makes every window from `start = 1` end at 6, and `6 - 5 = 1` again. -/
def c4text : List Char := "aaaa. ".data ++ List.replicate 20 'a'

/-- A job that has reached the terminal status `completed`. -/
def completedJob : ProcessingJob :=
  { status := "completed", progress := 100, error_message := none,
    document_id := some 1, started_at := some 0, completed_at := some 3 }

/-- A text containing exactly one DOI candidate (`10.1234/ABC.`; the
trailing period is captured because `.` is in the DOI character class). -/
def c3text : String := "See 10.1234/ABC."

/-- Two short sections, each fitting one chunk window. -/
def c5sections : List (String × List Char) :=
  [("abstract", "An abstract.".data), ("introduction", "Some intro.".data)]

/-- The chunks `chunk_with_metadata` produces for `c5sections`. -/
def c5out : List ChunkDict :=
  [⟨0, "An abstract.".data, some "abstract", "text"⟩,
   ⟨1, "Some intro.".data, some "introduction", "text"⟩]

/-- The single chunk `chunk_text` produces for `"hello world"`. -/
def c9out : List ChunkDict := [⟨0, "hello world".data, none, "text"⟩]

/-- The spec-side mean: the mean stripped character count over the first
`min(3, page_count)` pages. -/
def scannedMean (pageTexts : List (List Char)) : ℚ :=
  let counts := (pageTexts.take (min 3 pageTexts.length)).map (fun t => (pyStrip t).length)
  (counts.sum : ℚ) / (counts.length : ℚ)

/-! ## Helper lemmas -/

theorem pyRfind_bounds {xs sub : List Char} {a b i : Nat}
    (h : pyRfind xs sub a b = some i) :
    a ≤ i ∧ i + sub.length ≤ min b xs.length := by
  unfold pyRfind at h
  obtain ⟨ys, hys⟩ := List.getLast?_eq_some_iff.mp h
  have hmem : i ∈ (List.range' a (min b xs.length + 1 - (a + sub.length))).filter
      (fun j => sub.isPrefixOf (xs.drop j)) := by
    rw [hys]; exact List.mem_append_right ys (List.mem_singleton.mpr rfl)
  have hr := List.mem_range'_1.mp (List.mem_filter.mp hmem).1
  omega

theorem findDelimiterBreak_le (text : List Char) (start e : Nat) :
    ∀ (ds : List (List Char)) (v : Nat),
      findDelimiterBreak text start e ds = some v → v ≤ e := by
  intro ds
  induction ds with
  | nil => intro v h; simp [findDelimiterBreak] at h
  | cons d ds ih =>
    intro v h
    simp only [findDelimiterBreak] at h
    cases hr : pyRfind text d start e with
    | none => rw [hr] at h; dsimp only at h; exact ih v h
    | some i =>
      rw [hr] at h
      dsimp only at h
      by_cases hi : start < i
      · rw [if_pos hi] at h
        cases h
        have := pyRfind_bounds hr
        omega
      · rw [if_neg hi] at h
        exact ih v h

theorem computeEnd_le (size : Nat) (text : List Char) (start : Nat) :
    computeEnd size text start ≤ start + size := by
  unfold computeEnd
  dsimp only
  split
  · cases hd : findDelimiterBreak text start (start + size) delimiterList with
    | some v =>
      dsimp only
      exact findDelimiterBreak_le text start (start + size) delimiterList v hd
    | none =>
      dsimp only
      cases hs : pyRfind text [' '] start (start + size) with
      | some i =>
        dsimp only
        have := pyRfind_bounds hs
        split <;> omega
      | none => exact Nat.le_refl _
  · exact Nat.le_refl _

theorem length_pySlice (l : List Char) (a b : Nat) :
    (pySlice l a b).length = min b l.length - a := by
  simp [pySlice]

theorem length_pyStrip_le (l : List Char) : (pyStrip l).length ≤ l.length := by
  have h1 := (List.dropWhile_sublist (l := l) pyIsSpace).length_le
  have h2 := (List.dropWhile_sublist (l := (l.dropWhile pyIsSpace).reverse) pyIsSpace).length_le
  unfold pyStrip
  simp only [List.length_reverse] at *
  omega

theorem chunkPiece_length_le (cfg : TextChunker) (text : List Char) (start : Nat) :
    (chunkPiece cfg text start).length ≤ cfg.chunk_size := by
  unfold chunkPiece
  have h1 := length_pyStrip_le (pySlice text start (computeEnd cfg.chunk_size text start))
  have h2 := length_pySlice text start (computeEnd cfg.chunk_size text start)
  have h3 := computeEnd_le cfg.chunk_size text start
  omega

theorem dropWhile_dropWhile (p : Char → Bool) (l : List Char) :
    (l.dropWhile p).dropWhile p = l.dropWhile p := by
  induction l with
  | nil => rfl
  | cons a l ih =>
    by_cases h : p a
    · simp [List.dropWhile_cons, h, ih]
    · simp [List.dropWhile_cons, h]

theorem dropWhile_pyStrip (l : List Char) :
    (pyStrip l).dropWhile pyIsSpace = pyStrip l := by
  cases hBr : pyStrip l with
  | nil => rfl
  | cons r R =>
    have hpre : pyStrip l <+: l.dropWhile pyIsSpace := by
      obtain ⟨t, ht⟩ :=
        List.dropWhile_suffix (l := (l.dropWhile pyIsSpace).reverse) pyIsSpace
      refine ⟨t.reverse, ?_⟩
      show pyStrip l ++ t.reverse = l.dropWhile pyIsSpace
      unfold pyStrip
      rw [← List.reverse_append, ht, List.reverse_reverse]
    obtain ⟨t, ht⟩ := hpre
    rw [hBr] at ht
    have hform : l.dropWhile pyIsSpace = r :: (R ++ t) := by rw [← ht]; rfl
    have h0 := List.head?_dropWhile_not pyIsSpace l
    rw [hform] at h0
    simp only [List.head?_cons] at h0
    exact List.dropWhile_cons_of_neg (by simp [h0])

theorem pyStrip_idem (l : List Char) : pyStrip (pyStrip l) = pyStrip l := by
  show (((pyStrip l).dropWhile pyIsSpace).reverse.dropWhile pyIsSpace).reverse = pyStrip l
  rw [dropWhile_pyStrip]
  have h2 : (pyStrip l).reverse = (l.dropWhile pyIsSpace).reverse.dropWhile pyIsSpace := by
    unfold pyStrip; rw [List.reverse_reverse]
  rw [h2, dropWhile_dropWhile]
  rfl

theorem chunkLoop_indices (cfg : TextChunker) (text : List Char) (sect : Option String) :
    ∀ (fuel start idx : Nat) (acc out : List ChunkDict),
      idx = acc.length →
      acc.map (fun c => c.chunk_index) = List.range acc.length →
      chunkLoop cfg text sect fuel start idx acc = some out →
      out.map (fun c => c.chunk_index) = List.range out.length := by
  intro fuel
  induction fuel with
  | zero => intro start idx acc out h1 h2 h3; exact absurd h3 (by simp [chunkLoop])
  | succ n ih =>
    intro start idx acc out h1 h2 h3
    rw [chunkLoop] at h3
    split at h3
    · by_cases hp : (chunkPiece cfg text start).isEmpty
      · rw [if_pos hp, if_pos hp] at h3
        exact ih _ _ _ _ h1 h2 h3
      · rw [if_neg hp, if_neg hp] at h3
        refine ih _ _ _ _ ?_ ?_ h3
        · simp [h1]
        · subst h1
          simp only [List.map_append, List.length_append, h2, List.map_cons, List.map_nil,
            List.length_cons, List.length_nil]
          rw [show acc.length + (0 + 1) = acc.length + 1 by omega, List.range_succ]
    · cases h3; exact h2

theorem chunk_text_indices (cfg : TextChunker) (fuel : Nat) (text : List Char)
    (sect : Option String) (out : List ChunkDict)
    (h : chunk_text cfg fuel text sect = some out) :
    out.map (fun c => c.chunk_index) = List.range out.length := by
  unfold chunk_text at h
  split at h
  · cases h; rfl
  · exact chunkLoop_indices cfg text sect fuel 0 0 [] out rfl rfl h

theorem renumberFrom_length (g : Nat) (cs : List ChunkDict) :
    (renumberFrom g cs).length = cs.length := by
  induction cs generalizing g with
  | nil => rfl
  | cons c cs ih => simp [renumberFrom, ih]

theorem renumberFrom_map (g : Nat) (cs : List ChunkDict) :
    (renumberFrom g cs).map (fun c => c.chunk_index) = List.range' g cs.length := by
  induction cs generalizing g with
  | nil => rfl
  | cons c cs ih =>
    show g :: (renumberFrom (g + 1) cs).map (fun c => c.chunk_index)
      = List.range' g (cs.length + 1)
    rw [ih]
    rfl

theorem chunkSectionsAux_indices (cfg : TextChunker) (fuel : Nat) :
    ∀ (secs : List (String × List Char)) (g : Nat) (out : List ChunkDict),
      chunkSectionsAux cfg fuel secs g = some out →
      out.map (fun c => c.chunk_index) = List.range' g out.length := by
  intro secs
  induction secs with
  | nil =>
    intro g out h
    simp only [chunkSectionsAux] at h
    cases h
    rfl
  | cons p rest ih =>
    intro g out h
    obtain ⟨name, t⟩ := p
    simp only [chunkSectionsAux] at h
    split at h
    · exact ih g out h
    · cases hct : chunk_text cfg fuel t (some name) with
      | none => rw [hct] at h; exact absurd h (by simp)
      | some cs =>
        rw [hct] at h
        dsimp only at h
        cases hrest : chunkSectionsAux cfg fuel rest (g + cs.length) with
        | none => rw [hrest] at h; exact absurd h (by simp)
        | some csRest =>
          rw [hrest] at h
          dsimp only at h
          cases h
          rw [List.map_append, renumberFrom_map g cs, ih (g + cs.length) csRest hrest,
            List.length_append, renumberFrom_length, Nat.add_comm cs.length csRest.length]
          exact List.range'_append_1 g cs.length csRest.length

/-- C5: whenever `chunk_with_metadata` produces a chunk list (whether by
sections or from the full text), the chunk indices are exactly
`0, 1, ..., N-1` in order: no gaps, no duplicates. -/
theorem C5_chunk_index_contiguous (cfg : TextChunker) (fuel : Nat)
    (full_text : List Char) (sections : Option (List (String × List Char)))
    (out : List ChunkDict)
    (h : chunk_with_metadata cfg fuel full_text sections = some out) :
    out.map (fun c => c.chunk_index) = List.range out.length := by
  unfold chunk_with_metadata at h
  cases sections with
  | none => exact chunk_text_indices cfg fuel full_text (some "full_text") out h
  | some secs =>
    dsimp only at h
    split at h
    · rw [List.range_eq_range']
      exact chunkSectionsAux_indices cfg fuel secs 0 out h
    · exact chunk_text_indices cfg fuel full_text (some "full_text") out h

/-- C5 witness: the two-section document `c5sections` yields chunk
indices `[0, 1] = range 2`. -/
theorem C5_chunk_index_contiguous_witness :
    c5out.map (fun c => c.chunk_index) = List.range c5out.length :=
  C5_chunk_index_contiguous ⟨500, 50⟩ 2 "x".data (some c5sections) c5out (by rfl)

theorem chunkLoop_wellformed (cfg : TextChunker) (text : List Char) (sect : Option String) :
    ∀ (fuel start idx : Nat) (acc out : List ChunkDict),
      chunkLoop cfg text sect fuel start idx acc = some out →
      (∀ c ∈ acc, pyStrip c.text = c.text ∧ c.text ≠ [] ∧ c.text.length ≤ cfg.chunk_size) →
      ∀ c ∈ out, pyStrip c.text = c.text ∧ c.text ≠ [] ∧ c.text.length ≤ cfg.chunk_size := by
  intro fuel
  induction fuel with
  | zero => intro start idx acc out h hacc; exact absurd h (by simp [chunkLoop])
  | succ n ih =>
    intro start idx acc out h hacc
    rw [chunkLoop] at h
    split at h
    · by_cases hp : (chunkPiece cfg text start).isEmpty
      · rw [if_pos hp, if_pos hp] at h
        exact ih _ _ _ _ h hacc
      · rw [if_neg hp, if_neg hp] at h
        refine ih _ _ _ _ h ?_
        intro c hc
        rcases List.mem_append.mp hc with hold | hnew
        · exact hacc c hold
        · rw [List.mem_singleton.mp hnew]
          refine ⟨pyStrip_idem _, ?_, chunkPiece_length_le cfg text start⟩
          simpa [List.isEmpty_iff] using hp
    · cases h; exact hacc

/-- C9: every chunk dictionary produced by `chunk_text` stores text that is
already whitespace-stripped (so stripping it again changes nothing and it
is non-empty), and whose length never exceeds `chunk_size`: the boundary
backtracking only shortens the window. -/
theorem C9_chunk_text_wellformed (cfg : TextChunker) (fuel : Nat) (text : List Char)
    (sect : Option String) (out : List ChunkDict)
    (h : chunk_text cfg fuel text sect = some out) :
    ∀ c ∈ out, pyStrip c.text = c.text ∧ c.text ≠ [] ∧ c.text.length ≤ cfg.chunk_size := by
  unfold chunk_text at h
  split at h
  · cases h; intro c hc; exact absurd hc (by simp)
  · exact chunkLoop_wellformed cfg text sect fuel 0 0 [] out h (by intro c hc; exact absurd hc (by simp))

/-- C9 witness: the single chunk produced for `"hello world"` with the
default configuration is stripped, non-empty, and at most 500 characters. -/
theorem C9_chunk_text_wellformed_witness :
    pyStrip "hello world".data = "hello world".data ∧ "hello world".data ≠ [] ∧
      ("hello world".data).length ≤ 500 :=
  C9_chunk_text_wellformed ⟨500, 50⟩ 2 "hello world".data none c9out (by rfl)
    ⟨0, "hello world".data, none, "text"⟩ (by simp [c9out])

/-- C4 helper: from `start = 1` on `c4text` the loop window always ends at
6 and the advance returns to 1, so no amount of fuel finishes the loop. -/
theorem chunkLoop_c4_stuck : ∀ (fuel idx : Nat) (acc : List ChunkDict),
    chunkLoop c4cfg c4text none fuel 1 idx acc = none := by
  intro fuel
  induction fuel with
  | zero => intro idx acc; rfl
  | succ n ih =>
    intro idx acc
    have hstep : chunkLoop c4cfg c4text none (n + 1) 1 idx acc
        = chunkLoop c4cfg c4text none n 1 (idx + 1)
            (acc ++ [⟨idx, "aaa.".data, none, "text"⟩]) := rfl
    rw [hstep]
    exact ih (idx + 1) _

/-- C4: the claim says `chunk_text` terminates for every text and every
configuration with positive `chunk_size`; the code's `start <= 0` guard
does not catch non-advancing windows at positive positions.  On `c4text`
with `chunk_size = 10 > 0` and `chunk_overlap = 5 ≥ 0` the loop revisits
`start = 1` forever: the fuel-indexed loop returns `none` for every fuel,
contradicting the source comment "Prevent infinite loop". -/
theorem C4_chunk_text_nonterminating :
    ∀ fuel : Nat, chunk_text c4cfg fuel c4text none = none := by
  intro fuel
  cases fuel with
  | zero => rfl
  | succ n =>
    have hstep : chunk_text c4cfg (n + 1) c4text none
        = chunkLoop c4cfg c4text none n 1 1 [⟨0, "aaaa.".data, none, "text"⟩] := rfl
    rw [hstep]
    exact chunkLoop_c4_stuck n 1 _

/-- C2 counterexample: run the exact `update_job_status` calls the task
issues when an attempt fails after the progress-10 update and Celery
retries it.  The observed progress values while `processing` are
`[0, 10, 0, 10]` (not non-decreasing), and after the retry re-enters
`processing` the `completed_at` stamped by the failure is still set, so
the claimed invariant is false for this reachable trace. -/
theorem C2_retry_counterexample :
    ¬ jobInvariantHolds (runUpdates 0 freshJob retryTraceUpdates) := by decide

/-- C2 (amended): within a single execution attempt starting from a fresh
job the invariant does hold, both on the success path and on a terminally
failing attempt: progress is non-decreasing while `processing`, and
`completed_at` is non-null exactly in terminal states. -/
theorem C2_single_attempt_invariant :
    jobInvariantHolds (runUpdates 0 freshJob (successPathUpdates 1)) ∧
    jobInvariantHolds (runUpdates 0 freshJob
      [procUpdate 0, procUpdate 10, ⟨"failed", none, some "boom", none⟩]) := by decide

/-- C7 counterexample: `update_job_status` applies status and progress
changes to a job whose status is already terminal (`completed`), so
mutation of terminal jobs is not rejected. -/
theorem C7_update_terminal_counterexample :
    (update_job_status 5 completedJob "processing" (some 10) none none).status = "processing" ∧
    (update_job_status 5 completedJob "processing" (some 10) none none).progress = 10 ∧
    update_job_status 5 completedJob "processing" (some 10) none none ≠ completedJob := by
  decide

/-- C7 (amended): `cancel_job` on a terminal job returns `False` and leaves
the job unchanged, but `update_job_status` applies any requested status and
progress unconditionally, even to terminal jobs. -/
theorem C7_cancel_terminal_rejected (now : Nat) (job : ProcessingJob)
    (h : job.status ∈ terminalStatuses) :
    cancel_job now job = (false, job) ∧
    ∀ (s : String) (p : Nat),
      (update_job_status now job s (some p) none none).status = s ∧
      (update_job_status now job s (some p) none none).progress = p := by
  constructor
  · unfold cancel_job
    rw [if_pos h]
  · intro s p
    constructor
    · unfold update_job_status
      dsimp only
      split
      · rfl
      · split <;> rfl
    · unfold update_job_status
      dsimp only
      split
      · rfl
      · split <;> rfl

/-- C7 witness: the amended theorem applied to the concrete terminal job
`completedJob` at time 5. -/
theorem C7_cancel_terminal_rejected_witness :
    cancel_job 5 completedJob = (false, completedJob) :=
  (C7_cancel_terminal_rejected 5 completedJob (by decide)).1

/-- C3 counterexample: `c3text` contains one DOI candidate, and with an
oracle under which every candidate fails validation the extraction result
is the first candidate, not `none`. -/
theorem C3_all_invalid_counterexample :
    extract_dois c3text = ["10.1234/ABC."] ∧
    extract_and_validate (fun _ => false) c3text true = some "10.1234/ABC." := by
  exact ⟨rfl, rfl⟩

/-- C3 (amended): with validation enabled, when every extracted candidate
fails validation, `extract_and_validate` returns the first candidate
(`dois[0]`) rather than `none`; only when no candidate is extracted at all
is the result `none`.  Both cases are `(extract_dois text).head?`. -/
theorem C3_all_invalid_returns_first (oracle : String → Bool) (text : String)
    (h : ∀ d ∈ extract_dois text, oracle d = false) :
    extract_and_validate oracle text true = (extract_dois text).head? := by
  have hfind : (extract_dois text).find? oracle = none :=
    List.find?_eq_none.mpr (fun x hx => by simp [h x hx])
  unfold extract_and_validate
  dsimp only
  rw [hfind]
  cases hd : extract_dois text with
  | nil => rfl
  | cons a as => rfl

/-- C3 witness: the amended theorem applied to `c3text` with the
everything-fails oracle. -/
theorem C3_all_invalid_returns_first_witness :
    extract_and_validate (fun _ => false) c3text true = (extract_dois c3text).head? :=
  C3_all_invalid_returns_first (fun _ => false) c3text (fun _ _ => rfl)

/-- C6 counterexample: OCR of the whole document fails (an exception from
`pdf2image`/Tesseract, modelled by `extract_text_with_ocr (.error ...)`).
The pipeline continues with the extractor's direct text and does not fail,
but the step log records only the `ocr_detection` step: no step with
status `failed` is written for the OCR failure. -/
theorem C6_no_failed_step_counterexample :
    taskOcrSegment true (4/5) (extract_text_with_ocr (.error "pdf2image failed"))
        "direct text".data
      = ("direct text".data, false, [⟨"ocr_detection", "completed"⟩]) := by
  unfold taskOcrSegment
  rw [if_pos ⟨rfl, by norm_num⟩]
  rfl

/-- C6 (amended): whenever OCR is attempted (`is_scanned` with confidence
above 0.7) and the whole-document OCR extraction fails, the job segment
returns normally with the extractor's direct text and `ocr_applied =
False`, and the only step it records is the completed `ocr_detection`
step; in particular no step in its log has status `failed`. -/
theorem C6_ocr_failure_falls_back (confidence : ℚ) (e : String)
    (direct_text : List Char) (h : confidence > 7/10) :
    taskOcrSegment true confidence (extract_text_with_ocr (.error e)) direct_text
      = (direct_text, false, [⟨"ocr_detection", "completed"⟩]) ∧
    ∀ s ∈ (taskOcrSegment true confidence (extract_text_with_ocr (.error e))
        direct_text).2.2, s.status ≠ "failed" := by
  have heq : taskOcrSegment true confidence (extract_text_with_ocr (.error e)) direct_text
      = (direct_text, false, [⟨"ocr_detection", "completed"⟩]) := by
    unfold taskOcrSegment
    rw [if_pos ⟨rfl, h⟩]
    rfl
  refine ⟨heq, ?_⟩
  rw [heq]
  intro s hs
  rw [List.mem_singleton.mp hs]
  simp

/-- C6 witness: the amended theorem at confidence 4/5 and a concrete OCR
exception. -/
theorem C6_ocr_failure_falls_back_witness :
    taskOcrSegment true (4/5) (extract_text_with_ocr (.error "boom")) "direct".data
      = ("direct".data, false, [⟨"ocr_detection", "completed"⟩]) :=
  (C6_ocr_failure_falls_back (4/5) "boom" "direct".data (by norm_num)).1

/-- C10: if scanned-document detection hits any internal exception it
returns `(False, 0.0)` instead of propagating, and in
`extract_with_fallback` without `force_ocr` that outcome never triggers
OCR (`ocr_applied = False`). -/
theorem C10_detection_failure_no_ocr (e : String)
    (ocrPages : Except String (List (List Char))) :
    is_scanned_pdf_safe (.error e) 3 = (false, 0) ∧
    (extract_with_fallback (.error e) ocrPages false).ocr_applied = false := by
  refine ⟨rfl, ?_⟩
  unfold extract_with_fallback
  rw [if_neg ?_]
  · intro hor
    rcases hor with hforce | ⟨hscan, hconf⟩
    · exact Bool.false_ne_true hforce
    · have : ((0 : ℚ) > 7/10) := hconf
      norm_num at this

/-- C8: for a readable PDF with at least one page, detection returns
exactly `is_scanned = (mean < 50)` and `confidence = 1 - min(mean/500, 1)`
for the mean stripped character count over the first `min(3, page_count)`
pages, and the confidence always lies in `[0, 1]`. -/
theorem C8_is_scanned_pdf_spec (pageTexts : List (List Char)) (h : pageTexts ≠ []) :
    is_scanned_pdf pageTexts 3
      = (decide (scannedMean pageTexts < 50), 1 - min (scannedMean pageTexts / 500) 1) ∧
    0 ≤ (is_scanned_pdf pageTexts 3).2 ∧ (is_scanned_pdf pageTexts 3).2 ≤ 1 := by
  have hne : ((pageTexts.take (min 3 pageTexts.length)).map
      (fun t => (pyStrip t).length)).isEmpty = false := by
    cases pageTexts with
    | nil => exact absurd rfl h
    | cons p ps =>
      have h3 : min 3 (p :: ps).length ≠ 0 := by
        simp only [List.length_cons]
        omega
      cases hmin : min 3 (p :: ps).length with
      | zero => exact absurd hmin h3
      | succ n => simp [List.take_succ_cons]
  have heq : is_scanned_pdf pageTexts 3
      = (decide (scannedMean pageTexts < 50), 1 - min (scannedMean pageTexts / 500) 1) := by
    unfold is_scanned_pdf scannedMean
    dsimp only
    rw [hne]
    norm_num
  refine ⟨heq, ?_, ?_⟩
  · rw [heq]
    dsimp only
    have : min (scannedMean pageTexts / 500) 1 ≤ 1 := min_le_right _ _
    linarith
  · rw [heq]
    dsimp only
    have hmean : 0 ≤ scannedMean pageTexts := by
      unfold scannedMean
      dsimp only
      positivity
    have : 0 ≤ min (scannedMean pageTexts / 500) 1 :=
      le_min (by positivity) (by norm_num)
    linarith

/-- C8 witness: a single page whose text strips to 30 characters gives a
confidence in `[0, 1]` (indeed `47/50`) and `is_scanned = true`. -/
theorem C8_is_scanned_pdf_spec_witness :
    0 ≤ (is_scanned_pdf [List.replicate 30 'a'] 3).2 ∧
      (is_scanned_pdf [List.replicate 30 'a'] 3).2 ≤ 1 :=
  (C8_is_scanned_pdf_spec [List.replicate 30 'a'] (by simp)).2

/-- C1 counterexample: with two stored chunks carrying identical
embeddings, a result list that places chunk_index 1 before chunk_index 0
is a valid outcome of the query (the `ORDER BY similarity DESC` constraint
is satisfied because the similarities are equal, and SQL fixes no order
among ties), yet it violates the claimed ascending-chunk_index tie rule:
the code has no tie-break clause. -/
theorem C1_tie_order_counterexample :
    search_similar_chunks_valid [rowA, rowB] [1, 0] 10 none none none
      [(rowB, similarityScore rowB [1, 0]), (rowA, similarityScore rowA [1, 0])] ∧
    ¬ tiesByChunkIndex
      [(rowB, similarityScore rowB [1, 0]), (rowA, similarityScore rowA [1, 0])] := by
  constructor
  · refine ⟨[rowB, rowA], ?_, ?_, ?_⟩
    · have hfilter : ([rowA, rowB].filter (rowMatchesFilters none none none)) = [rowA, rowB] :=
        rfl
      rw [hfilter]
      exact List.Perm.swap rowA rowB []
    · refine List.pairwise_cons.mpr ⟨?_, List.pairwise_singleton _ _⟩
      intro r hr
      rw [List.mem_singleton.mp hr]
      exact le_of_eq rfl
    · rfl
  · intro hties
    have h1 := (List.pairwise_cons.mp hties).1 (rowA, similarityScore rowA [1, 0])
      (List.mem_singleton.mpr rfl)
    have h2 := h1 rfl
    exact absurd h2 (by decide)

/-- C1 (amended): every result list the query can return carries
`similarity_score = 1 - cosine_distance(chunk_embedding, query_embedding)`
for each returned chunk, and is ordered by non-increasing similarity; the
ascending-chunk_index tie rule is dropped since the SQL has no tie-break
clause. -/
theorem C1_search_score_and_order (table : List ChunkRow) (q : List ℝ) (k : Nat)
    (docF : Option Nat) (secF typeF : Option String) (out : List (ChunkRow × ℝ))
    (h : search_similar_chunks_valid table q k docF secF typeF out) :
    (∀ p ∈ out, p.2 = similarityScore p.1 q) ∧
    out.Pairwise (fun a b => b.2 ≤ a.2) := by
  obtain ⟨ranked, hperm, hsorted, hout⟩ := h
  subst hout
  constructor
  · intro p hp
    obtain ⟨r, hr, hpr⟩ := List.mem_map.mp hp
    rw [← hpr]
  · exact List.pairwise_map.mpr ((hsorted.sublist (List.take_sublist k ranked)))

/-- C1 witness: the amended theorem applied to a one-row table and its
(unique) valid result list. -/
theorem C1_search_score_and_order_witness :
    ([(rowA, similarityScore rowA [1, 0])] : List (ChunkRow × ℝ)).Pairwise
      (fun a b => b.2 ≤ a.2) :=
  (C1_search_score_and_order [rowA] [1, 0] 10 none none none
    [(rowA, similarityScore rowA [1, 0])]
    ⟨[rowA], List.Perm.refl _, List.pairwise_singleton _ _, rfl⟩).2
